import Mathlib

/-!
Verification of the binary-tree layout and interaction engine of the
monkey-coin front end (`src/components/tree/BinaryTreeView.tsx` and
`src/pages/tree/MyTree.tsx`).

The embedding follows the TypeScript source closely:

* `TreeNode` models the `TreeNode | null` values the component receives;
  the `null` constructor is the JavaScript `null`.
* Pixel quantities are rationals (`ℚ`), since JavaScript arithmetic on the
  small integral constants involved is exact.
* The layout constants keep their source names and values.
-/

namespace MonkeyCoin

/-- The `TreeNode | null` type from `src/types/tree.ts`: a binary referral tree where
each node carries an id, a member id, an email and an activity flag, and the
`null` constructor stands for an absent child / absent tree. Fields that the
claims never examine (position, sponsor, display-only extras) are omitted. -/
inductive TreeNode where
  | null : TreeNode
  | mk (id : ℕ) (memberId : String) (email : String) (isActive : Bool)
      (leftChild : TreeNode) (rightChild : TreeNode) : TreeNode
deriving DecidableEq, Repr

namespace TreeNode

/-- JavaScript truthiness test `!node`. -/
def isNull : TreeNode → Bool
  | .null => true
  | .mk _ _ _ _ _ _ => false

/-- Accessor `node.id` (reads 0 on `null`, which the source never does). -/
def id : TreeNode → ℕ
  | .null => 0
  | .mk i _ _ _ _ _ => i

/-- Accessor `node.memberId`. -/
def memberId : TreeNode → String
  | .null => ""
  | .mk _ m _ _ _ _ => m

/-- Accessor `node.email`. -/
def email : TreeNode → String
  | .null => ""
  | .mk _ _ e _ _ _ => e

/-- Accessor `node.leftChild` (null on `null`). -/
def leftChild : TreeNode → TreeNode
  | .null => .null
  | .mk _ _ _ _ l _ => l

/-- Accessor `node.rightChild` (null on `null`). -/
def rightChild : TreeNode → TreeNode
  | .null => .null
  | .mk _ _ _ _ _ r => r

end TreeNode

/-! Layout constants, `BinaryTreeView.tsx` lines 17-20. -/

def NODE_WIDTH : ℚ := 100
def NODE_HEIGHT : ℚ := 105
def HORIZONTAL_SPACING : ℚ := 16
def VERTICAL_SPACING : ℚ := 50

/-- Source `getSubtreeWidth(node, showAddPlaceholder = true)`,
`BinaryTreeView.tsx` lines 160-176.  A missing child reserves one node
width when `showAddPlaceholder` is set and nothing otherwise; a leaf
reserves two placeholder slots; an internal node adds the spacing between
the widths of its two child slots, reserving a placeholder slot for a
missing child. -/
def getSubtreeWidth : TreeNode → Bool → ℚ
  | .null, showAddPlaceholder => if showAddPlaceholder then NODE_WIDTH else 0
  | .mk _ _ _ _ l r, _ =>
    if l.isNull && r.isNull then
      NODE_WIDTH * 2 + HORIZONTAL_SPACING
    else
      getSubtreeWidth l l.isNull + HORIZONTAL_SPACING + getSubtreeWidth r r.isNull

/-- Source `getMaxDepth(node, currentDepth = 0)`, `BinaryTreeView.tsx` lines 153-158. -/
def getMaxDepth : TreeNode → ℕ → ℕ
  | .null, currentDepth => currentDepth
  | .mk _ _ _ _ l r, currentDepth =>
    max (getMaxDepth l (currentDepth + 1)) (getMaxDepth r (currentDepth + 1))

/-! Child-slot geometry, `BinaryTreeView.tsx` lines 293-300: the widths of a
node's two child slots and the horizontal centers assigned to them when the
node itself is centered at `x`. -/

/-- The width `getSubtreeWidth(node.leftChild, !hasLeft)` (line 295). -/
def leftSubtreeWidth (n : TreeNode) : ℚ :=
  getSubtreeWidth n.leftChild n.leftChild.isNull

/-- The width `getSubtreeWidth(node.rightChild, !hasRight)` (line 296). -/
def rightSubtreeWidth (n : TreeNode) : ℚ :=
  getSubtreeWidth n.rightChild n.rightChild.isNull

/-- The value `totalWidth` (line 298). -/
def totalChildWidth (n : TreeNode) : ℚ :=
  leftSubtreeWidth n + HORIZONTAL_SPACING + rightSubtreeWidth n

/-- The value `leftCenterX` (line 299). -/
def leftCenterX (n : TreeNode) (x : ℚ) : ℚ :=
  x - totalChildWidth n / 2 + leftSubtreeWidth n / 2

/-- The value `rightCenterX` (line 300). -/
def rightCenterX (n : TreeNode) (x : ℚ) : ℚ :=
  x + totalChildWidth n / 2 - rightSubtreeWidth n / 2

/-- The value `treeWidth = getSubtreeWidth(rootNode)` (line 353). -/
def treeWidth (rootNode : TreeNode) : ℚ := getSubtreeWidth rootNode true

/-- The value `treeHeight` (line 355). -/
def treeHeight (rootNode : TreeNode) : ℚ :=
  (getMaxDepth rootNode 0 + 1) * (NODE_HEIGHT + VERTICAL_SPACING) + 80

/-- The value `startX = treeWidth / 2 + 40` (line 357). -/
def startX (rootNode : TreeNode) : ℚ := treeWidth rootNode / 2 + 40

/-- One command of an SVG path string: `M x y`, `L x y` or `Q cx cy x y`. -/
inductive PathCmd where
  | moveTo (x y : ℚ) : PathCmd
  | lineTo (x y : ℚ) : PathCmd
  | quadTo (cx cy x y : ℚ) : PathCmd
deriving DecidableEq, Repr

/-- Source `renderConnector(startX, startY, endX, endY)`, `BinaryTreeView.tsx` lines
179-226, as the list of SVG path commands it emits: a rounded L-shape bending
left when `endX < startX`, bending right when `endX > startX`, and a straight
segment otherwise, with `midY` halfway between the endpoints and a fixed
corner radius of 6. -/
def renderConnector (sX sY eX eY : ℚ) : List PathCmd :=
  let midY := sY + (eY - sY) * (1 / 2)
  let radius : ℚ := 6
  if eX < sX then
    [.moveTo sX sY,
     .lineTo sX (midY - radius),
     .quadTo sX midY (sX - radius) midY,
     .lineTo (eX + radius) midY,
     .quadTo eX midY eX (midY + radius),
     .lineTo eX eY]
  else if sX < eX then
    [.moveTo sX sY,
     .lineTo sX (midY - radius),
     .quadTo sX midY (sX + radius) midY,
     .lineTo (eX - radius) midY,
     .quadTo eX midY eX (midY + radius),
     .lineTo eX eY]
  else
    [.moveTo sX sY, .lineTo eX eY]

/-- The position literals `"LEFT" | "RIGHT"`. -/
inductive Pos where
  | LEFT : Pos
  | RIGHT : Pos
deriving DecidableEq, Repr

/-- One absolutely positioned entry of the `elements` array built by
`renderNode`: either an `AddUserNode` placeholder (keyed by parent id and
side) or a `TreeNodeCard` wrapper carrying `data-node-id` (here: the node
itself).  `left`/`top` are the CSS offsets of the wrapper `div`. -/
inductive Element where
  | addUser (parentId : ℕ) (position : Pos) (parentMemberId : Option String)
      (left top : ℚ) : Element
  | nodeCard (node : TreeNode) (left top : ℚ) (isRoot : Bool) : Element
deriving DecidableEq, Repr

/-- One `<g key={connector-side-id}>` entry of the `connectors` array: the
emitting node's id, the side, and the path commands. -/
structure Connector where
  parentId : ℕ
  side : Pos
  cmds : List PathCmd
deriving DecidableEq, Repr

/-- The pair of arrays `renderNode` returns. -/
structure RenderOut where
  elements : List Element
  connectors : List Connector
deriving DecidableEq, Repr

/-- JavaScript truthiness of `!parentId` (line 280): true when `parentId` is
`undefined` or `0`. -/
def isRootFlag : Option ℕ → Bool
  | none => true
  | some p => p == 0

/-- Source `renderNode(node, x, y, parentId?, parentMemberId?, position?,
isPlaceholder = false)`, `BinaryTreeView.tsx` lines 228-343.  A placeholder
call (flag set, parent id and side present) emits a single `AddUserNode` and
no connectors; a `null` node emits nothing; a real node emits its card, one
connector toward each child slot, and then the renders of its two child
slots (a present child recursively, an absent child as a placeholder), where
only a present child contributes connectors. -/
def renderNode (node : TreeNode) (x y : ℚ) (parentId : Option ℕ)
    (parentMemberId : Option String) (position : Option Pos)
    (isPlaceholder : Bool) : RenderOut :=
  match isPlaceholder, parentId, position with
  | true, some pid, some pos =>
    ⟨[.addUser pid pos parentMemberId (x - NODE_WIDTH / 2) y], []⟩
  | _, _, _ =>
    match node with
    | .null => ⟨[], []⟩
    | .mk nid mid em act l r =>
      let self : TreeNode := .mk nid mid em act l r
      let childY := y + NODE_HEIGHT + VERTICAL_SPACING
      let lcx := leftCenterX self x
      let rcx := rightCenterX self x
      let selfEl : Element := .nodeCard self (x - NODE_WIDTH / 2) y (isRootFlag parentId)
      let leftConnector : Connector :=
        ⟨nid, .LEFT, renderConnector x (y + NODE_HEIGHT) lcx childY⟩
      let rightConnector : Connector :=
        ⟨nid, .RIGHT, renderConnector x (y + NODE_HEIGHT) rcx childY⟩
      let leftResult := renderNode l lcx childY (some nid) (some mid) (some .LEFT) l.isNull
      let rightResult := renderNode r rcx childY (some nid) (some mid) (some .RIGHT) r.isNull
      ⟨selfEl :: (leftResult.elements ++ rightResult.elements),
       leftConnector :: rightConnector ::
         ((if l.isNull then [] else leftResult.connectors) ++
          (if r.isNull then [] else rightResult.connectors))⟩

/-- The top-level render of `BinaryTreeView` for a non-null root
(lines 353-360): `renderNode(rootNode, startX, 20)`. -/
def renderTree (rootNode : TreeNode) : RenderOut :=
  renderNode rootNode (startX rootNode) 20 none none none false

/-- The point where a path command leaves the pen. -/
def cmdEnd : PathCmd → ℚ × ℚ
  | .moveTo x y => (x, y)
  | .lineTo x y => (x, y)
  | .quadTo _ _ x y => (x, y)

/-- The start point of a path: the target of its leading `M` command. -/
def pathStart : List PathCmd → Option (ℚ × ℚ)
  | .moveTo x y :: _ => some (x, y)
  | _ => none

/-- The end point of a path: where its last command leaves the pen. -/
def pathEnd (cmds : List PathCmd) : Option (ℚ × ℚ) :=
  cmds.getLast?.map cmdEnd

/-- The child-slot center a connector of the given side points at, for a
parent node `n` centered at `px` (lines 303-318 pass `leftCenterX` to the
left connector and `rightCenterX` to the right one). -/
def connectorTargetX (n : TreeNode) (px : ℚ) : Pos → ℚ
  | .LEFT => leftCenterX n px
  | .RIGHT => rightCenterX n px

/-- The `(node id, side)` keys of the connectors a tree should emit, in
emission order: each real node contributes one `connector-left` and one
`connector-right` key, then its left subtree's keys, then its right
subtree's. -/
def connectorKeys : TreeNode → List (ℕ × Pos)
  | .null => []
  | .mk nid _ _ _ l r =>
    (nid, .LEFT) :: (nid, .RIGHT) :: (connectorKeys l ++ connectorKeys r)

/-! Search helpers from `src/pages/tree/MyTree.tsx`.  JavaScript string
operations are modelled on the character lists of Lean strings:
`toLowerCase` maps `Char.toLower`, `trim` strips whitespace from both ends,
and `includes` is substring containment. -/

/-- Characters `String.prototype.trim` strips (the ASCII ones). -/
def isJsSpace (c : Char) : Bool :=
  c = ' ' || c = '\t' || c = '\n' || c = '\r'

/-- Model of `s.trim()` on the character list. -/
def trimChars (l : List Char) : List Char :=
  ((l.dropWhile isJsSpace).reverse.dropWhile isJsSpace).reverse

/-- Model of `s.toLowerCase()`. -/
def jsToLower (s : String) : String := ⟨s.data.map Char.toLower⟩

/-- Model of `s.trim()`. -/
def jsTrim (s : String) : String := ⟨trimChars s.data⟩

/-- JavaScript falsiness of `s.trim()`: the trimmed string is empty. -/
def jsTrimEmpty (s : String) : Bool := (trimChars s.data).isEmpty

/-- Tests whether `pre` begins the second list. -/
def prefixOfChars : List Char → List Char → Bool
  | [], _ => true
  | _ :: _, [] => false
  | a :: pre, b :: l => a = b && prefixOfChars pre l

/-- Tests whether `sub` occurs as a contiguous sublist. -/
def containsSub (sub : List Char) : List Char → Bool
  | [] => sub.isEmpty
  | c :: rest => prefixOfChars sub (c :: rest) || containsSub sub rest

/-- Model of `s.includes(sub)`. -/
def jsIncludes (s sub : String) : Bool := containsSub sub.data s.data

/-- Source `nodeMatchesSearch(node, query)`, `MyTree.tsx` lines 46-53: false for a
null node or a whitespace-only query; otherwise the lower-cased member id or
email contains the lower-cased, trimmed query. -/
def nodeMatchesSearch (node : TreeNode) (query : String) : Bool :=
  match node with
  | .null => false
  | .mk _ mid em _ _ _ =>
    if jsTrimEmpty query then false
    else
      let lowerQuery := jsTrim (jsToLower query)
      jsIncludes (jsToLower mid) lowerQuery || jsIncludes (jsToLower em) lowerQuery

/-- The `traverse` closure of `findMatchingNodeIds` (lines 60-67): the set of
ids of nodes in the tree that satisfy `nodeMatchesSearch`. -/
def collectMatches (query : String) : TreeNode → Finset ℕ
  | .null => ∅
  | .mk nid mid em act l r =>
    (if nodeMatchesSearch (.mk nid mid em act l r) query then {nid} else ∅) ∪
      collectMatches query l ∪ collectMatches query r

/-- Source `findMatchingNodeIds(node, query)`, `MyTree.tsx` lines 56-71: the empty
set for a null tree or a whitespace-only query, otherwise the traversal's
matches. -/
def findMatchingNodeIds (node : TreeNode) (query : String) : Finset ℕ :=
  if node.isNull || jsTrimEmpty query then ∅ else collectMatches query node

/-- The match set in the claim's own words: ids of nodes whose member id or
email case-insensitively contains the query itself (no trimming) as a
substring. -/
def claimMatchSet (query : String) : TreeNode → Finset ℕ
  | .null => ∅
  | .mk nid mid em _ l r =>
    (if jsIncludes (jsToLower mid) (jsToLower query) ||
        jsIncludes (jsToLower em) (jsToLower query) then {nid} else ∅) ∪
      claimMatchSet query l ∪ claimMatchSet query r

/-- The match set with the query lower-cased and trimmed before the substring
test, as the code actually matches. -/
def trimmedMatchSet (query : String) : TreeNode → Finset ℕ
  | .null => ∅
  | .mk nid mid em _ l r =>
    (if jsIncludes (jsToLower mid) (jsTrim (jsToLower query)) ||
        jsIncludes (jsToLower em) (jsTrim (jsToLower query)) then {nid} else ∅) ∪
      trimmedMatchSet query l ∪ trimmedMatchSet query r

/-! Business-volume counting from `src/pages/tree/MyTree.tsx` lines 31-43. -/

/-- The `countNodes` closure of `countBusinessVolume`. -/
def countNodes : TreeNode → ℕ
  | .null => 0
  | .mk _ _ _ _ l r => 1 + countNodes l + countNodes r

/-- Source `countBusinessVolume(node)`: `(0, 0)` for null, otherwise the node counts
of the left and right subtrees. -/
def countBusinessVolume : TreeNode → ℕ × ℕ
  | .null => (0, 0)
  | .mk _ _ _ _ l r => (countNodes l, countNodes r)

/-- The number of nodes in a (possibly null) subtree, stated independently of
the code's counter. -/
def subtreeSize : TreeNode → ℕ
  | .null => 0
  | .mk _ _ _ _ l r => subtreeSize l + subtreeSize r + 1

/-- The value `businessVolume = treeData ? countBusinessVolume(treeData) : {0,0}` and
the `extremeLeft` / `extremeRight` props `MyTree` passes to `TreeControls`
(lines 101, 115-120). -/
def myTreeExtremes (treeData : TreeNode) : ℕ × ℕ :=
  if treeData.isNull then (0, 0) else countBusinessVolume treeData

/-! Interaction state machine of `BinaryTreeView.tsx` (lines 36-151).
Timers are modelled explicitly: `live` is the list of timeouts that are
scheduled and neither fired nor cancelled, tagged with the callback the
source passes to `setTimeout`; `hoverRef` is `hoverTimeoutRef.current`.
The DOM is a read-only environment: the container's bounding rectangle and
a finite map from `data-node-id` to bounding rectangles. -/

/-- A bounding client rect. -/
structure Rect where
  left : ℚ
  top : ℚ
  width : ℚ
  height : ℚ
deriving DecidableEq, Repr

/-- The callback captured by a hover timeout: either the delayed show of a
node's popover (lines 85-94) or the delayed hide (lines 106-108, 120-122). -/
inductive TimerAction where
  | showNode (n : TreeNode) : TimerAction
  | hideHover : TimerAction
deriving DecidableEq, Repr

/-- The component instance's state: React state (`hoverState`,
`tappedNodeId`, `isMobile`), the timer ref, the set of live timeouts, a
fresh-id counter for `setTimeout`, and whether the instance is mounted. -/
structure CompState where
  mounted : Bool
  isMobile : Bool
  hoverNode : TreeNode
  hoverPos : ℚ × ℚ
  hoverHeight : ℚ
  tappedNodeId : Option ℕ
  live : List (ℕ × TimerAction)
  hoverRef : Option ℕ
  nextId : ℕ
deriving DecidableEq, Repr

/-- The freshly mounted component (lines 36-42): no popover, nothing tapped,
no timer. -/
def initState (isMobile : Bool) : CompState :=
  { mounted := true, isMobile := isMobile, hoverNode := .null,
    hoverPos := (0, 0), hoverHeight := 0, tappedNodeId := none,
    live := [], hoverRef := none, nextId := 0 }

/-- Source `getNodePosition(nodeId)`, lines 61-73: `null` when the container or the
node's element is missing, otherwise the node's bottom-center anchor relative
to the container, plus the element height. -/
def getNodePosition (container : Option Rect) (dom : List (ℕ × Rect))
    (nodeId : ℕ) : Option (ℚ × ℚ × ℚ) :=
  match container, dom.lookup nodeId with
  | some c, some r =>
    some (r.left - c.left + r.width / 2, r.top - c.top + r.height, r.height)
  | _, _ => none

/-- Effect of `clearTimeout(hoverTimeoutRef.current); hoverTimeoutRef.current =
null` (lines 79-82, 101-103, 113-116). -/
def cancelHoverTimer (s : CompState) : CompState :=
  match s.hoverRef with
  | some t => { s with live := s.live.filter (fun p => ¬ p.1 = t), hoverRef := none }
  | none => s

/-- Effect of `hoverTimeoutRef.current = setTimeout(action, delay)`: a fresh timeout
becomes live and the ref points at it. -/
def scheduleHoverTimer (s : CompState) (a : TimerAction) : CompState :=
  { s with
    live := s.live ++ [(s.nextId, a)]
    hoverRef := some s.nextId
    nextId := s.nextId + 1 }

/-- Source `handleHoverStart(node)`, lines 75-95: on desktop, clear any pending
hover timeout and schedule the delayed show of this node's popover. -/
def handleHoverStart (s : CompState) (n : TreeNode) : CompState :=
  if s.isMobile then s
  else scheduleHoverTimer (cancelHoverTimer s) (.showNode n)

/-- Source `handleHoverEnd()`, lines 97-109: on desktop, clear any pending hover
timeout and schedule the delayed hide. -/
def handleHoverEnd (s : CompState) : CompState :=
  if s.isMobile then s
  else scheduleHoverTimer (cancelHoverTimer s) .hideHover

/-- Source `handlePopupMouseEnter()`, lines 112-117: clear any pending hover
timeout. -/
def handlePopupMouseEnter (s : CompState) : CompState :=
  cancelHoverTimer s

/-- Source `handlePopupMouseLeave()`, lines 119-123: schedule the delayed hide.
The source does NOT clear the previous timeout first. -/
def handlePopupMouseLeave (s : CompState) : CompState :=
  scheduleHoverTimer s .hideHover

/-- Effect of `setHoverState({node, position, nodeHeight})`. -/
def setHoverStateTo (s : CompState) (n : TreeNode) (p : ℚ × ℚ) (h : ℚ) :
    CompState :=
  { s with hoverNode := n, hoverPos := p, hoverHeight := h }

/-- Effect of `setHoverState({node: null, position: {x:0,y:0}, nodeHeight: 0})`. -/
def clearHoverState (s : CompState) : CompState :=
  { s with hoverNode := .null, hoverPos := (0, 0), hoverHeight := 0 }

/-- The body of a hover timeout callback: the show callback looks the node's
position up and, only if it is found, shows the popover (lines 85-94); the
hide callback clears the popover (lines 106-108). -/
def runTimerAction (container : Option Rect) (dom : List (ℕ × Rect))
    (s : CompState) : TimerAction → CompState
  | .showNode n =>
    match getNodePosition container dom n.id with
    | some (x, y, h) => setHoverStateTo s n (x, y) h
    | none => s
  | .hideHover => clearHoverState s

/-- The event loop fires live timeout `t`: it is removed from the live set
and its callback runs (whether or not the component is still mounted — the
source registers no cleanup that would cancel it). -/
def fireTimer (container : Option Rect) (dom : List (ℕ × Rect))
    (s : CompState) (t : ℕ) : CompState :=
  match s.live.lookup t with
  | some a =>
    runTimerAction container dom
      { s with live := s.live.filter (fun p => ¬ p.1 = t) } a
  | none => s

/-- Source `handleMobileTap(node)`, lines 125-146: on mobile, a second tap on the
tapped node clears the popover and tapped id; a first tap shows the popover
and records the tap, but only when the node's position is found. -/
def handleMobileTap (container : Option Rect) (dom : List (ℕ × Rect))
    (s : CompState) (n : TreeNode) : CompState :=
  if ¬ s.isMobile then s
  else if s.tappedNodeId = some n.id then
    { (clearHoverState s) with tappedNodeId := none }
  else
    match getNodePosition container dom n.id with
    | some (x, y, h) => { (setHoverStateTo s n (x, y) h) with tappedNodeId := some n.id }
    | none => s

/-- Unmounting the component.  The only `useEffect` (lines 44-53) returns no
cleanup, so no timer is cancelled: teardown merely marks the instance
unmounted. -/
def unmountComp (s : CompState) : CompState :=
  { s with mounted := false }

/-- At most one hover timeout is live, and any live one is the one the ref
holds. -/
def hoverTimerInv (s : CompState) : Prop :=
  s.live.length ≤ 1 ∧ ∀ p ∈ s.live, s.hoverRef = some p.1

/-! Long-press machinery.  The `BinaryTreeView` variant embedded in
`src/components/tree/PackagePurchaseModal.tsx` (lines 1294-1495) owns a
second timer ref, `longPressTimeoutRef`, driven by `handleTouchStart`,
`handleTouchEnd` and `handleTouchCancel`. -/

/-- The long-press subsystem: live long-press timeouts, the ref, and the
`longPressTriggeredRef` flag. -/
structure LPState where
  live : List ℕ
  lpRef : Option ℕ
  triggered : Bool
  nextId : ℕ
deriving DecidableEq, Repr

/-- Effect of `clearTimeout(longPressTimeoutRef.current)` plus nulling the ref
(lines 1451-1454, 1474-1477, 1490-1493). -/
def cancelLPTimer (s : LPState) : LPState :=
  match s.lpRef with
  | some t => { s with live := s.live.filter (fun x => ¬ x = t), lpRef := none }
  | none => s

/-- Source `handleTouchStart`, lines 1446-1468: on mobile, reset the triggered
flag, clear any pending long-press timeout, and schedule a fresh one. -/
def handleTouchStart (isMobile : Bool) (s : LPState) : LPState :=
  if ¬ isMobile then s
  else
    let s1 := cancelLPTimer { s with triggered := false }
    { s1 with
      live := s1.live ++ [s1.nextId]
      lpRef := some s1.nextId
      nextId := s1.nextId + 1 }

/-- Source `handleTouchEnd`, lines 1470-1487 (timer part): on mobile, clear any
pending long-press timeout and consume the triggered flag. -/
def handleTouchEnd (isMobile : Bool) (s : LPState) : LPState :=
  if ¬ isMobile then s
  else
    let s1 := cancelLPTimer s
    if s1.triggered then { s1 with triggered := false } else s1

/-- Source `handleTouchCancel`, lines 1489-1495. -/
def handleTouchCancel (s : LPState) : LPState :=
  { (cancelLPTimer s) with triggered := false }

/-- The long-press timeout fires: it leaves the live set and sets the
triggered flag (lines 1460-1465). -/
def fireLPTimer (s : LPState) (t : ℕ) : LPState :=
  if t ∈ s.live then
    { s with live := s.live.filter (fun x => ¬ x = t), triggered := true }
  else s

/-- At most one long-press timeout is live, and any live one is the one the
ref holds. -/
def lpTimerInv (s : LPState) : Prop :=
  s.live.length ≤ 1 ∧ ∀ t ∈ s.live, s.lpRef = some t

end MonkeyCoin

namespace MonkeyCoin

/-- C1: for every tree and every node card the renderer places, the
horizontal range assigned to the node's left child subtree (its center
`leftCenterX` plus/minus half its width) ends at least `HORIZONTAL_SPACING`
before the range assigned to the right child subtree begins, so sibling
subtree ranges are disjoint. The node's center is its card offset plus half
a node width. -/
theorem sibling_subtrees_disjoint (t n : TreeNode) (lx ty : ℚ) (rt : Bool)
    (h : Element.nodeCard n lx ty rt ∈ (renderTree t).elements) :
    leftCenterX n (lx + NODE_WIDTH / 2) + leftSubtreeWidth n / 2 +
        HORIZONTAL_SPACING ≤
      rightCenterX n (lx + NODE_WIDTH / 2) - rightSubtreeWidth n / 2 := by
  simp only [leftCenterX, rightCenterX, totalChildWidth, HORIZONTAL_SPACING]
  linarith

/-- Closed instance of `sibling_subtrees_disjoint` at a one-node tree: its
root card sits at offset `(98, 20)` and the separation holds there. -/
theorem sibling_subtrees_disjoint_witness :
    Element.nodeCard (.mk 1 "M1" "a@b" true .null .null) 98 20 true ∈
        (renderTree (.mk 1 "M1" "a@b" true .null .null)).elements ∧
      leftCenterX (.mk 1 "M1" "a@b" true .null .null) (98 + NODE_WIDTH / 2) +
          leftSubtreeWidth (.mk 1 "M1" "a@b" true .null .null) / 2 +
          HORIZONTAL_SPACING ≤
        rightCenterX (.mk 1 "M1" "a@b" true .null .null) (98 + NODE_WIDTH / 2) -
          rightSubtreeWidth (.mk 1 "M1" "a@b" true .null .null) / 2 :=
  ⟨by
    simp [renderTree, renderNode, isRootFlag, startX, treeWidth, getSubtreeWidth,
      TreeNode.isNull, NODE_WIDTH, NODE_HEIGHT, HORIZONTAL_SPACING, VERTICAL_SPACING]
    norm_num,
    sibling_subtrees_disjoint (.mk 1 "M1" "a@b" true .null .null)
      (.mk 1 "M1" "a@b" true .null .null) 98 20 true
      (by
        simp [renderTree, renderNode, isRootFlag, startX, treeWidth, getSubtreeWidth,
          TreeNode.isNull, NODE_WIDTH, NODE_HEIGHT, HORIZONTAL_SPACING, VERTICAL_SPACING]
        norm_num)⟩

/-- Unfolding equation: rendering a null node without the placeholder flag
emits nothing. -/
theorem renderNode_null_eq (x y : ℚ) (pid : Option ℕ) (pmid : Option String)
    (pos : Option Pos) :
    renderNode .null x y pid pmid pos false = ⟨[], []⟩ := rfl

/-- Unfolding equation for rendering a real node without the placeholder
flag, spelled with the child-center helpers. -/
theorem renderNode_mk_eq (nid : ℕ) (mid em : String) (act : Bool)
    (l r : TreeNode) (x y : ℚ) (pid : Option ℕ) (pmid : Option String)
    (pos : Option Pos) :
    renderNode (.mk nid mid em act l r) x y pid pmid pos false =
      ⟨Element.nodeCard (.mk nid mid em act l r) (x - NODE_WIDTH / 2) y
          (isRootFlag pid) ::
        ((renderNode l (leftCenterX (.mk nid mid em act l r) x)
            (y + NODE_HEIGHT + VERTICAL_SPACING) (some nid) (some mid)
            (some .LEFT) l.isNull).elements ++
         (renderNode r (rightCenterX (.mk nid mid em act l r) x)
            (y + NODE_HEIGHT + VERTICAL_SPACING) (some nid) (some mid)
            (some .RIGHT) r.isNull).elements),
       ⟨nid, .LEFT, renderConnector x (y + NODE_HEIGHT)
          (leftCenterX (.mk nid mid em act l r) x)
          (y + NODE_HEIGHT + VERTICAL_SPACING)⟩ ::
       ⟨nid, .RIGHT, renderConnector x (y + NODE_HEIGHT)
          (rightCenterX (.mk nid mid em act l r) x)
          (y + NODE_HEIGHT + VERTICAL_SPACING)⟩ ::
        ((if l.isNull then []
          else (renderNode l (leftCenterX (.mk nid mid em act l r) x)
              (y + NODE_HEIGHT + VERTICAL_SPACING) (some nid) (some mid)
              (some .LEFT) l.isNull).connectors) ++
         (if r.isNull then []
          else (renderNode r (rightCenterX (.mk nid mid em act l r) x)
              (y + NODE_HEIGHT + VERTICAL_SPACING) (some nid) (some mid)
              (some .RIGHT) r.isNull).connectors))⟩ := rfl

/-- Every connector a non-placeholder render emits belongs to a rendered
node card: its id matches, and its path is `renderConnector` applied to the
node's bottom anchor and the matching child-slot center one row below. -/
theorem renderNode_connectors_anchored (t : TreeNode) :
    ∀ (x y : ℚ) (pid : Option ℕ) (pmid : Option String) (pos : Option Pos),
      ∀ c ∈ (renderNode t x y pid pmid pos false).connectors,
        ∃ n px py rt,
          Element.nodeCard n (px - NODE_WIDTH / 2) py rt ∈
            (renderNode t x y pid pmid pos false).elements ∧
          c.parentId = n.id ∧
          c.cmds = renderConnector px (py + NODE_HEIGHT)
            (connectorTargetX n px c.side)
            (py + NODE_HEIGHT + VERTICAL_SPACING) := by
  induction t with
  | null =>
    intro x y pid pmid pos c hc
    rw [renderNode_null_eq] at hc
    simp at hc
  | mk nid mid em act l r ihl ihr =>
    intro x y pid pmid pos c hc
    rw [renderNode_mk_eq] at hc ⊢
    rcases List.mem_cons.1 hc with rfl | hc
    · exact ⟨.mk nid mid em act l r, x, y, isRootFlag pid,
        List.mem_cons_self _ _, rfl, rfl⟩
    rcases List.mem_cons.1 hc with rfl | hc
    · exact ⟨.mk nid mid em act l r, x, y, isRootFlag pid,
        List.mem_cons_self _ _, rfl, rfl⟩
    rcases List.mem_append.1 hc with hL | hR
    · by_cases hl : l.isNull = true
      · simp [hl] at hL
      · have hl2 : l.isNull = false := eq_false_of_ne_true hl
        simp only [hl2, Bool.false_eq_true, if_false] at hL ⊢
        obtain ⟨n, px, py, rt, hmem, hpid, hcmds⟩ :=
          ihl (leftCenterX (.mk nid mid em act l r) x)
            (y + NODE_HEIGHT + VERTICAL_SPACING) (some nid) (some mid)
            (some .LEFT) c hL
        exact ⟨n, px, py, rt,
          List.mem_cons_of_mem _ (List.mem_append_left _ hmem), hpid, hcmds⟩
    · by_cases hr : r.isNull = true
      · simp [hr] at hR
      · have hr2 : r.isNull = false := eq_false_of_ne_true hr
        simp only [hr2, Bool.false_eq_true, if_false] at hR ⊢
        obtain ⟨n, px, py, rt, hmem, hpid, hcmds⟩ :=
          ihr (rightCenterX (.mk nid mid em act l r) x)
            (y + NODE_HEIGHT + VERTICAL_SPACING) (some nid) (some mid)
            (some .RIGHT) c hR
        exact ⟨n, px, py, rt,
          List.mem_cons_of_mem _ (List.mem_append_right _ hmem), hpid, hcmds⟩

/-- Branch equation of `renderConnector` when the child center lies left of
the parent. -/
theorem renderConnector_left (sX sY eX eY : ℚ) (h : eX < sX) :
    renderConnector sX sY eX eY =
      [.moveTo sX sY,
       .lineTo sX (sY + (eY - sY) * (1 / 2) - 6),
       .quadTo sX (sY + (eY - sY) * (1 / 2)) (sX - 6) (sY + (eY - sY) * (1 / 2)),
       .lineTo (eX + 6) (sY + (eY - sY) * (1 / 2)),
       .quadTo eX (sY + (eY - sY) * (1 / 2)) eX (sY + (eY - sY) * (1 / 2) + 6),
       .lineTo eX eY] := by
  simp [renderConnector, h]

/-- Branch equation of `renderConnector` when the child center lies right of
the parent. -/
theorem renderConnector_right (sX sY eX eY : ℚ) (h : sX < eX) :
    renderConnector sX sY eX eY =
      [.moveTo sX sY,
       .lineTo sX (sY + (eY - sY) * (1 / 2) - 6),
       .quadTo sX (sY + (eY - sY) * (1 / 2)) (sX + 6) (sY + (eY - sY) * (1 / 2)),
       .lineTo (eX - 6) (sY + (eY - sY) * (1 / 2)),
       .quadTo eX (sY + (eY - sY) * (1 / 2)) eX (sY + (eY - sY) * (1 / 2) + 6),
       .lineTo eX eY] := by
  have h2 : ¬ eX < sX := asymm h
  simp [renderConnector, h, h2]

/-- Branch equation of `renderConnector` when the child center is aligned
with the parent: a single straight segment. -/
theorem renderConnector_straight (sX sY eY : ℚ) :
    renderConnector sX sY sX eY = [.moveTo sX sY, .lineTo sX eY] := by
  simp [renderConnector]

/-- Every connector path begins with a move to its start anchor. -/
theorem pathStart_renderConnector (sX sY eX eY : ℚ) :
    pathStart (renderConnector sX sY eX eY) = some (sX, sY) := by
  rcases lt_trichotomy eX sX with h | h | h
  · rw [renderConnector_left sX sY eX eY h]; rfl
  · subst h; rw [renderConnector_straight]; rfl
  · rw [renderConnector_right sX sY eX eY h]; rfl

/-- Every connector path ends at its end anchor. -/
theorem pathEnd_renderConnector (sX sY eX eY : ℚ) :
    pathEnd (renderConnector sX sY eX eY) = some (eX, eY) := by
  rcases lt_trichotomy eX sX with h | h | h
  · rw [renderConnector_left sX sY eX eY h]; rfl
  · subst h; rw [renderConnector_straight]; rfl
  · rw [renderConnector_right sX sY eX eY h]; rfl

/-- C4: connector geometry.  Part one, for arbitrary anchors: the path
starts at the start anchor, ends at the end anchor, degenerates to the
straight vertical segment exactly when the child x equals the parent x, and
otherwise runs along the vertical midpoint `midY` with corner radius 6.
Part two, for every connector the renderer emits: its start is the emitting
node's bottom-center anchor `(px, py + NODE_HEIGHT)` and its end is the
matching child slot's top-center anchor, one row further down. -/
theorem connector_geometry :
    (∀ sX sY eX eY : ℚ,
      pathStart (renderConnector sX sY eX eY) = some (sX, sY) ∧
      pathEnd (renderConnector sX sY eX eY) = some (eX, eY) ∧
      (renderConnector sX sY eX eY = [.moveTo sX sY, .lineTo eX eY] ↔ eX = sX) ∧
      (eX ≠ sX →
        PathCmd.lineTo sX (sY + (eY - sY) * (1 / 2) - 6) ∈
            renderConnector sX sY eX eY ∧
          (PathCmd.lineTo (eX + 6) (sY + (eY - sY) * (1 / 2)) ∈
              renderConnector sX sY eX eY ∨
            PathCmd.lineTo (eX - 6) (sY + (eY - sY) * (1 / 2)) ∈
              renderConnector sX sY eX eY))) ∧
    (∀ (t : TreeNode) (x y : ℚ) (pid : Option ℕ) (pmid : Option String)
        (pos : Option Pos),
      ∀ c ∈ (renderNode t x y pid pmid pos false).connectors,
        ∃ n px py rt,
          Element.nodeCard n (px - NODE_WIDTH / 2) py rt ∈
            (renderNode t x y pid pmid pos false).elements ∧
          c.parentId = n.id ∧
          pathStart c.cmds = some (px, py + NODE_HEIGHT) ∧
          pathEnd c.cmds =
            some (connectorTargetX n px c.side,
              py + NODE_HEIGHT + VERTICAL_SPACING)) := by
  constructor
  · intro sX sY eX eY
    refine ⟨pathStart_renderConnector sX sY eX eY,
      pathEnd_renderConnector sX sY eX eY, ?_, ?_⟩
    · constructor
      · intro heq
        rcases lt_trichotomy eX sX with h | h | h
        · rw [renderConnector_left sX sY eX eY h] at heq
          simp at heq
        · exact h
        · rw [renderConnector_right sX sY eX eY h] at heq
          simp at heq
      · intro heq
        subst heq
        exact renderConnector_straight eX sY eY
    · intro hne
      rcases lt_trichotomy eX sX with h | h | h
      · rw [renderConnector_left sX sY eX eY h]
        exact ⟨by simp, Or.inl (by simp)⟩
      · exact absurd h hne
      · rw [renderConnector_right sX sY eX eY h]
        exact ⟨by simp, Or.inr (by simp)⟩
  · intro t x y pid pmid pos c hc
    obtain ⟨n, px, py, rt, hmem, hpid, hcmds⟩ :=
      renderNode_connectors_anchored t x y pid pmid pos c hc
    exact ⟨n, px, py, rt, hmem, hpid,
      by rw [hcmds]; exact pathStart_renderConnector _ _ _ _,
      by rw [hcmds]; exact pathEnd_renderConnector _ _ _ _⟩

/-- Closed instance of `connector_geometry`: the midpoint routing at anchors
`(10, 0) → (4, 100)`, and the anchoring of the concrete left connector of a
one-node tree. -/
theorem connector_geometry_witness :
    ((4 : ℚ) ≠ 10 ∧
      (PathCmd.lineTo 10 ((0 : ℚ) + ((100 : ℚ) - 0) * (1 / 2) - 6) ∈
          renderConnector 10 0 4 100 ∧
        (PathCmd.lineTo ((4 : ℚ) + 6) ((0 : ℚ) + ((100 : ℚ) - 0) * (1 / 2)) ∈
            renderConnector 10 0 4 100 ∨
          PathCmd.lineTo ((4 : ℚ) - 6) ((0 : ℚ) + ((100 : ℚ) - 0) * (1 / 2)) ∈
            renderConnector 10 0 4 100))) ∧
    ((⟨1, Pos.LEFT, renderConnector 148 125 90 175⟩ : Connector) ∈
        (renderNode (.mk 1 "M1" "a@b" true .null .null) 148 20 none none none
            false).connectors ∧
      ∃ n px py rt,
        Element.nodeCard n (px - NODE_WIDTH / 2) py rt ∈
          (renderNode (.mk 1 "M1" "a@b" true .null .null) 148 20 none none none
              false).elements ∧
        (⟨1, Pos.LEFT, renderConnector 148 125 90 175⟩ : Connector).parentId =
          n.id ∧
        pathStart (⟨1, Pos.LEFT, renderConnector 148 125 90 175⟩ :
            Connector).cmds = some (px, py + NODE_HEIGHT) ∧
        pathEnd (⟨1, Pos.LEFT, renderConnector 148 125 90 175⟩ :
            Connector).cmds =
          some (connectorTargetX n px
              (⟨1, Pos.LEFT, renderConnector 148 125 90 175⟩ : Connector).side,
            py + NODE_HEIGHT + VERTICAL_SPACING)) := by
  have hmem : (⟨1, Pos.LEFT, renderConnector 148 125 90 175⟩ : Connector) ∈
      (renderNode (.mk 1 "M1" "a@b" true .null .null) 148 20 none none none
          false).connectors := by
    simp [renderNode_mk_eq, leftCenterX, rightCenterX, totalChildWidth,
      leftSubtreeWidth, rightSubtreeWidth, TreeNode.leftChild,
      TreeNode.rightChild, getSubtreeWidth, TreeNode.isNull, NODE_WIDTH,
      NODE_HEIGHT, HORIZONTAL_SPACING, VERTICAL_SPACING]
    norm_num
  exact ⟨⟨by norm_num, (connector_geometry.1 10 0 4 100).2.2.2 (by norm_num)⟩,
    hmem, connector_geometry.2 (.mk 1 "M1" "a@b" true .null .null) 148 20
      none none none _ hmem⟩

/-- The `(id, side)` keys of the connectors a non-placeholder render emits
are exactly `connectorKeys` of the tree: two per real node, in emission
order. -/
theorem renderNode_connector_keys (t : TreeNode) :
    ∀ (x y : ℚ) (pid : Option ℕ) (pmid : Option String) (pos : Option Pos),
      ((renderNode t x y pid pmid pos false).connectors.map
          fun c => (c.parentId, c.side)) = connectorKeys t := by
  induction t with
  | null => intro x y pid pmid pos; rw [renderNode_null_eq]; rfl
  | mk nid mid em act l r ihl ihr =>
    intro x y pid pmid pos
    rw [renderNode_mk_eq]
    have hL : ((if l.isNull = true then ([] : List Connector)
        else (renderNode l (leftCenterX (.mk nid mid em act l r) x)
            (y + NODE_HEIGHT + VERTICAL_SPACING) (some nid) (some mid)
            (some .LEFT) l.isNull).connectors).map
          fun c => (c.parentId, c.side)) = connectorKeys l := by
      cases l with
      | null => simp [TreeNode.isNull, connectorKeys]
      | mk a b c2 d e f =>
        simp only [TreeNode.isNull, Bool.false_eq_true, if_false]
        exact ihl _ _ _ _ _
    have hR : ((if r.isNull = true then ([] : List Connector)
        else (renderNode r (rightCenterX (.mk nid mid em act l r) x)
            (y + NODE_HEIGHT + VERTICAL_SPACING) (some nid) (some mid)
            (some .RIGHT) r.isNull).connectors).map
          fun c => (c.parentId, c.side)) = connectorKeys r := by
      cases r with
      | null => simp [TreeNode.isNull, connectorKeys]
      | mk a b c2 d e f =>
        simp only [TreeNode.isNull, Bool.false_eq_true, if_false]
        exact ihr _ _ _ _ _
    simp only [List.map_cons, List.map_append, hL, hR, connectorKeys]

/-- The key list has two entries per real node. -/
theorem connectorKeys_length (t : TreeNode) :
    (connectorKeys t).length = 2 * countNodes t := by
  induction t with
  | null => rfl
  | mk nid mid em act l r ihl ihr =>
    simp [connectorKeys, countNodes, ihl, ihr]
    omega

/-- C10: a non-placeholder render emits exactly two connectors per real
node — keyed with the node's id, one per child slot, whether or not the
slot holds a real child — and a placeholder render emits a single add-user
element, no connectors and no descendants. -/
theorem connector_emission :
    (∀ (t : TreeNode) (x y : ℚ) (pid : Option ℕ) (pmid : Option String)
        (pos : Option Pos),
      ((renderNode t x y pid pmid pos false).connectors.map
          fun c => (c.parentId, c.side)) = connectorKeys t ∧
      (renderNode t x y pid pmid pos false).connectors.length =
        2 * countNodes t) ∧
    (∀ (t : TreeNode) (x y : ℚ) (pid : ℕ) (pmid : Option String) (pos : Pos),
      renderNode t x y (some pid) pmid (some pos) true =
        ⟨[.addUser pid pos pmid (x - NODE_WIDTH / 2) y], []⟩) := by
  constructor
  · intro t x y pid pmid pos
    refine ⟨renderNode_connector_keys t x y pid pmid pos, ?_⟩
    have h := congrArg List.length (renderNode_connector_keys t x y pid pmid pos)
    rw [List.length_map] at h
    rw [h, connectorKeys_length]
  · intro t x y pid pmid pos
    cases t <;> rfl

/-- The code's node counter agrees with the structural subtree size. -/
theorem countNodes_eq_subtreeSize (t : TreeNode) :
    countNodes t = subtreeSize t := by
  induction t with
  | null => rfl
  | mk nid mid em act l r ihl ihr =>
    simp [countNodes, subtreeSize, ihl, ihr]
    omega

/-- C9: `countBusinessVolume` returns exactly the node counts of the left
and right subtrees, `(0, 0)` on a null input, and these are the values the
tree page passes as the extreme-left and extreme-right figures. -/
theorem business_volume_counts :
    (∀ (i : ℕ) (m e : String) (a : Bool) (l r : TreeNode),
      countBusinessVolume (.mk i m e a l r) = (subtreeSize l, subtreeSize r)) ∧
    countBusinessVolume .null = (0, 0) ∧
    (∀ t : TreeNode,
      myTreeExtremes t = (subtreeSize t.leftChild, subtreeSize t.rightChild)) := by
  refine ⟨?_, rfl, ?_⟩
  · intro i m e a l r
    simp [countBusinessVolume, countNodes_eq_subtreeSize]
  · intro t
    cases t with
    | null =>
      simp [myTreeExtremes, TreeNode.isNull, TreeNode.leftChild,
        TreeNode.rightChild, subtreeSize]
    | mk i m e a l r =>
      simp [myTreeExtremes, TreeNode.isNull, countBusinessVolume,
        countNodes_eq_subtreeSize, TreeNode.leftChild, TreeNode.rightChild]

/-- When the query is not whitespace-only, the traversal collects exactly
the ids matching the lower-cased, trimmed query. -/
theorem collectMatches_eq_trimmed (q : String) (hq : jsTrimEmpty q = false) :
    ∀ t : TreeNode, collectMatches q t = trimmedMatchSet q t := by
  intro t
  induction t with
  | null => rfl
  | mk nid mid em act l r ihl ihr =>
    simp [collectMatches, trimmedMatchSet, nodeMatchesSearch, hq, ihl, ihr]

/-- C5 counterexample: `findMatchingNodeIds` trims the query before the
substring test, so for the padded query `" AB "` it matches the node with
member id `"xaby"`, while the claim's untrimmed containment matches
nothing. -/
theorem search_claim_counterexample :
    findMatchingNodeIds (.mk 1 "xaby" "z@z" true .null .null) " AB " ≠
      claimMatchSet " AB " (.mk 1 "xaby" "z@z" true .null .null) := by
  decide

/-- C5 amended: `findMatchingNodeIds` returns the empty set whenever the
query is empty or whitespace-only, and otherwise returns exactly the ids of
nodes whose member id or email, lower-cased, contains the lower-cased and
trimmed query as a substring. -/
theorem search_correctness_amended (t : TreeNode) (q : String) :
    (jsTrimEmpty q = true → findMatchingNodeIds t q = ∅) ∧
    (jsTrimEmpty q = false → findMatchingNodeIds t q = trimmedMatchSet q t) := by
  constructor
  · intro h
    simp [findMatchingNodeIds, h]
  · intro h
    cases t with
    | null => simp [findMatchingNodeIds, TreeNode.isNull, trimmedMatchSet]
    | mk nid mid em act l r =>
      simp [findMatchingNodeIds, TreeNode.isNull, h]
      exact collectMatches_eq_trimmed q h _

/-- Closed instance of `search_correctness_amended`, at a whitespace query
and at the padded query `" AB "`. -/
theorem search_correctness_amended_witness :
    (jsTrimEmpty "  " = true ∧
      findMatchingNodeIds (.mk 1 "xaby" "z@z" true .null .null) "  " = ∅) ∧
    (jsTrimEmpty " AB " = false ∧
      findMatchingNodeIds (.mk 1 "xaby" "z@z" true .null .null) " AB " =
        trimmedMatchSet " AB " (.mk 1 "xaby" "z@z" true .null .null)) :=
  ⟨⟨by decide,
    (search_correctness_amended (.mk 1 "xaby" "z@z" true .null .null) "  ").1
      (by decide)⟩,
   ⟨by decide,
    (search_correctness_amended (.mk 1 "xaby" "z@z" true .null .null) " AB ").2
      (by decide)⟩⟩

/-- Looking a key up after filtering it out finds nothing. -/
theorem lookup_filter_self (l : List (ℕ × TimerAction)) (t : ℕ) :
    (l.filter fun p => ¬ p.1 = t).lookup t = none := by
  induction l with
  | nil => rfl
  | cons p l ih =>
    obtain ⟨k, v⟩ := p
    rw [List.filter_cons]
    by_cases hp : k = t
    · rw [if_neg (by simp [hp])]
      exact ih
    · rw [if_pos (by simp [hp])]
      have hbeq : (t == k) = false := by simp [Ne.symm hp]
      simp only [List.lookup, hbeq]
      exact ih

/-- Appending a fresh single entry preserves a failed lookup. -/
theorem lookup_append_single (l : List (ℕ × TimerAction)) (t x : ℕ)
    (a : TimerAction) (hl : l.lookup t = none) (hx : ¬ t = x) :
    (l ++ [(x, a)]).lookup t = none := by
  induction l with
  | nil =>
    have hbeq : (t == x) = false := by simp [hx]
    simp [List.lookup, hbeq]
  | cons p l ih =>
    obtain ⟨k, v⟩ := p
    by_cases hpt : t = k
    · exfalso
      have hbeq : (t == k) = true := by simp [hpt]
      simp [List.lookup, hbeq] at hl
    · have hbeq : (t == k) = false := by simp [hpt]
      simp only [List.cons_append, List.lookup, hbeq] at hl ⊢
      exact ih hl

/-- Under the hover-timer invariant, clearing the ref leaves no live
timeout. -/
theorem cancel_live_nil (s : CompState) (h : hoverTimerInv s) :
    (cancelHoverTimer s).live = [] := by
  obtain ⟨hlen, href⟩ := h
  cases hr : s.hoverRef with
  | none =>
    have hnil : s.live = [] := by
      cases hl : s.live with
      | nil => rfl
      | cons p l =>
        have hp := href p (by rw [hl]; exact List.mem_cons_self _ _)
        rw [hr] at hp
        cases hp
    simp [cancelHoverTimer, hr, hnil]
  | some t =>
    simp only [cancelHoverTimer, hr]
    rw [List.filter_eq_nil_iff]
    intro p hp
    have hs := href p hp
    rw [hr] at hs
    have hpt : p.1 = t := (Option.some.inj hs).symm
    simp [hpt]

/-- Scheduling on a timer-free state establishes the hover-timer
invariant. -/
theorem schedule_inv (s : CompState) (a : TimerAction) (h : s.live = []) :
    hoverTimerInv (scheduleHoverTimer s a) := by
  constructor <;> simp [scheduleHoverTimer, h]

/-- Timer callbacks never touch the live set or the ref. -/
theorem runTimerAction_timers (c : Option Rect) (d : List (ℕ × Rect))
    (s : CompState) (a : TimerAction) :
    (runTimerAction c d s a).live = s.live ∧
      (runTimerAction c d s a).hoverRef = s.hoverRef ∧
      (runTimerAction c d s a).nextId = s.nextId := by
  cases a with
  | hideHover => exact ⟨rfl, rfl, rfl⟩
  | showNode n =>
    cases h : getNodePosition c d n.id with
    | none => simp [runTimerAction, h]
    | some p =>
      obtain ⟨px, py, ph⟩ := p
      simp [runTimerAction, h, setHoverStateTo]

/-- The mobile tap handler never touches the live set or the ref. -/
theorem handleMobileTap_timers (c : Option Rect) (d : List (ℕ × Rect))
    (s : CompState) (n : TreeNode) :
    (handleMobileTap c d s n).live = s.live ∧
      (handleMobileTap c d s n).hoverRef = s.hoverRef := by
  by_cases hm : s.isMobile
  · by_cases ht : s.tappedNodeId = some n.id
    · simp [handleMobileTap, hm, ht, clearHoverState]
    · cases h : getNodePosition c d n.id with
      | none => simp [handleMobileTap, hm, ht, h]
      | some p =>
        obtain ⟨px, py, ph⟩ := p
        simp [handleMobileTap, hm, ht, h, setHoverStateTo]
  · simp [handleMobileTap, hm]

/-- Under the long-press invariant, clearing the ref leaves no live
timeout. -/
theorem lp_cancel_live_nil (s : LPState) (h : lpTimerInv s) :
    (cancelLPTimer s).live = [] := by
  obtain ⟨hlen, href⟩ := h
  cases hr : s.lpRef with
  | none =>
    have hnil : s.live = [] := by
      cases hl : s.live with
      | nil => rfl
      | cons p l =>
        have hp := href p (by rw [hl]; exact List.mem_cons_self _ _)
        rw [hr] at hp
        cases hp
    simp [cancelLPTimer, hr, hnil]
  | some t =>
    simp only [cancelLPTimer, hr]
    rw [List.filter_eq_nil_iff]
    intro p hp
    have hs := href p hp
    rw [hr] at hs
    have hpt : p = t := (Option.some.inj hs).symm
    simp [hpt]

/-- C6 counterexample: from the reachable state with a pending hover-show
timeout (hover over a node, then the popup's mouse-leave fires),
`handlePopupMouseLeave` schedules a hide timeout without cancelling: two
hover timeouts are then pending at once, and the superseded show callback
still fires and re-shows the popover. -/
theorem timer_exclusivity_counterexample :
    (handleHoverStart (initState false)
        (.mk 1 "M1" "a@b" true .null .null)).hoverRef = some 0 ∧
    ¬ (handlePopupMouseLeave (handleHoverStart (initState false)
        (.mk 1 "M1" "a@b" true .null .null))).live.length ≤ 1 ∧
    (0, TimerAction.showNode (.mk 1 "M1" "a@b" true .null .null)) ∈
      (handlePopupMouseLeave (handleHoverStart (initState false)
        (.mk 1 "M1" "a@b" true .null .null))).live ∧
    (fireTimer (some ⟨0, 0, 800, 600⟩) [(1, ⟨10, 10, 100, 105⟩)]
        (handlePopupMouseLeave (handleHoverStart (initState false)
          (.mk 1 "M1" "a@b" true .null .null))) 0).hoverNode =
      .mk 1 "M1" "a@b" true .null .null := by
  refine ⟨rfl, by decide, by decide, rfl⟩

/-- C6 amended: hover start, hover end and popup enter first cancel any
pending hover timeout; they, the timer callbacks, the mobile tap handler
and unmount preserve the at-most-one-hover-timeout invariant; popup leave
schedules without cancelling and so preserves it only from timer-free
states; and the long-press handlers (touch start cancelling first) keep at
most one long-press timeout pending. -/
theorem timer_exclusivity_amended :
    (∀ (s : CompState) (n : TreeNode) (t : ℕ),
      s.isMobile = false → s.hoverRef = some t → ¬ t = s.nextId →
      ((handleHoverStart s n).live.lookup t = none ∧
       (handleHoverEnd s).live.lookup t = none ∧
       (handlePopupMouseEnter s).live.lookup t = none)) ∧
    (∀ s : CompState, hoverTimerInv s →
      (∀ n, hoverTimerInv (handleHoverStart s n)) ∧
      hoverTimerInv (handleHoverEnd s) ∧
      hoverTimerInv (handlePopupMouseEnter s) ∧
      (∀ c d t, hoverTimerInv (fireTimer c d s t)) ∧
      (∀ c d n, hoverTimerInv (handleMobileTap c d s n)) ∧
      hoverTimerInv (unmountComp s)) ∧
    (∀ s : CompState, s.live = [] →
      hoverTimerInv (handlePopupMouseLeave s)) ∧
    (∀ (s : LPState) (t : ℕ), s.lpRef = some t → ¬ t = s.nextId →
      ¬ t ∈ (handleTouchStart true s).live) ∧
    (∀ s : LPState, lpTimerInv s →
      (∀ m, lpTimerInv (handleTouchStart m s)) ∧
      (∀ m, lpTimerInv (handleTouchEnd m s)) ∧
      lpTimerInv (handleTouchCancel s) ∧
      (∀ t, lpTimerInv (fireLPTimer s t))) := by
  refine ⟨?_, ?_, ?_, ?_, ?_⟩
  · intro s n t hm href hne
    have hkey : ∀ a : TimerAction,
        ((scheduleHoverTimer (cancelHoverTimer s) a).live.lookup t) = none := by
      intro a
      simp only [scheduleHoverTimer, cancelHoverTimer, href]
      exact lookup_append_single _ _ _ _ (lookup_filter_self _ _) hne
    refine ⟨?_, ?_, ?_⟩
    · simp only [handleHoverStart, hm, Bool.false_eq_true, if_false]
      exact hkey _
    · simp only [handleHoverEnd, hm, Bool.false_eq_true, if_false]
      exact hkey _
    · simp only [handlePopupMouseEnter, cancelHoverTimer, href]
      exact lookup_filter_self _ _
  · intro s hinv
    have hcan : (cancelHoverTimer s).live = [] := cancel_live_nil s hinv
    have hcaninv : hoverTimerInv (cancelHoverTimer s) := by
      constructor <;> simp [hcan]
    refine ⟨?_, ?_, hcaninv, ?_, ?_, ?_⟩
    · intro n
      by_cases hm : s.isMobile
      · simpa [handleHoverStart, hm] using hinv
      · simp only [handleHoverStart, hm, Bool.false_eq_true, if_false]
        exact schedule_inv _ _ hcan
    · by_cases hm : s.isMobile
      · simpa [handleHoverEnd, hm] using hinv
      · simp only [handleHoverEnd, hm, Bool.false_eq_true, if_false]
        exact schedule_inv _ _ hcan
    · intro c d t
      cases hl : s.live.lookup t with
      | none => simpa [fireTimer, hl] using hinv
      | some a =>
        simp only [fireTimer, hl]
        obtain ⟨h1, h2, _⟩ := runTimerAction_timers c d
          { s with live := s.live.filter fun p => ¬ p.1 = t } a
        constructor
        · rw [h1]
          exact le_trans (List.length_filter_le _ _) hinv.1
        · intro p hp
          rw [h1] at hp
          rw [h2]
          exact hinv.2 p (List.mem_of_mem_filter hp)
    · intro c d n
      obtain ⟨h1, h2⟩ := handleMobileTap_timers c d s n
      constructor
      · rw [h1]; exact hinv.1
      · intro p hp
        rw [h1] at hp
        rw [h2]
        exact hinv.2 p hp
    · exact hinv
  · intro s h
    exact schedule_inv s _ h
  · intro s t href hne
    have h1 : (handleTouchStart true s).live =
        (s.live.filter fun x => ¬ x = t) ++ [s.nextId] := by
      simp [handleTouchStart, cancelLPTimer, href]
    rw [h1]
    intro hmem
    rcases List.mem_append.1 hmem with hin | hin
    · exact absurd (List.mem_filter.1 hin).2 (by simp)
    · rw [List.mem_singleton] at hin
      exact hne hin
  · intro s hinv
    have hcan : (cancelLPTimer s).live = [] := lp_cancel_live_nil s hinv
    have hcant : (cancelLPTimer { s with triggered := false }).live = [] :=
      lp_cancel_live_nil _ hinv
    refine ⟨?_, ?_, ?_, ?_⟩
    · intro m
      by_cases hm : m = true
      · subst hm
        have h1 : (handleTouchStart true s).live =
            (cancelLPTimer { s with triggered := false }).live ++
              [(cancelLPTimer { s with triggered := false }).nextId] := by
          simp [handleTouchStart]
        have h2 : (handleTouchStart true s).lpRef =
            some (cancelLPTimer { s with triggered := false }).nextId := by
          simp [handleTouchStart]
        constructor
        · rw [h1, hcant]
          simp
        · intro u hu
          rw [h1, hcant] at hu
          simp at hu
          rw [h2, hu]
      · have hm2 : m = false := eq_false_of_ne_true hm
        subst hm2
        simpa [handleTouchStart] using hinv
    · intro m
      by_cases hm : m = true
      · subst hm
        have hTE : handleTouchEnd true s =
            (if (cancelLPTimer s).triggered then
              { (cancelLPTimer s) with triggered := false }
            else cancelLPTimer s) := by
          simp [handleTouchEnd]
        rw [hTE]
        by_cases htr : (cancelLPTimer s).triggered
        · rw [if_pos htr]
          constructor <;> simp [hcan]
        · rw [if_neg htr]
          constructor <;> simp [hcan]
      · have hm2 : m = false := eq_false_of_ne_true hm
        subst hm2
        simpa [handleTouchEnd] using hinv
    · constructor <;> simp [handleTouchCancel, hcan]
    · intro t
      by_cases hmem : t ∈ s.live
      · have hf : (fireLPTimer s t).live = s.live.filter fun x => ¬ x = t := by
          simp [fireLPTimer, hmem]
        have hr : (fireLPTimer s t).lpRef = s.lpRef := by
          simp [fireLPTimer, hmem]
        constructor
        · rw [hf]
          exact le_trans (List.length_filter_le _ _) hinv.1
        · intro p hp
          rw [hf] at hp
          rw [hr]
          exact hinv.2 p (List.mem_of_mem_filter hp)
      · simpa [fireLPTimer, hmem] using hinv

/-- Closed instance of `timer_exclusivity_amended`: each part applied at a
concrete state, with its hypotheses discharged there. -/
theorem timer_exclusivity_amended_witness :
    ((handleHoverStart (initState false)
          (.mk 1 "M1" "a@b" true .null .null)).isMobile = false ∧
      (handleHoverStart (initState false)
          (.mk 1 "M1" "a@b" true .null .null)).hoverRef = some 0 ∧
      ¬ (0 : ℕ) = (handleHoverStart (initState false)
          (.mk 1 "M1" "a@b" true .null .null)).nextId ∧
      (handlePopupMouseEnter (handleHoverStart (initState false)
          (.mk 1 "M1" "a@b" true .null .null))).live.lookup 0 = none) ∧
    (hoverTimerInv (initState false) ∧
      hoverTimerInv (handleHoverEnd (initState false))) ∧
    ((initState false).live = [] ∧
      hoverTimerInv (handlePopupMouseLeave (initState false))) ∧
    ((⟨[5], some 5, false, 6⟩ : LPState).lpRef = some 5 ∧
      ¬ (5 : ℕ) = (⟨[5], some 5, false, 6⟩ : LPState).nextId ∧
      ¬ (5 : ℕ) ∈ (handleTouchStart true ⟨[5], some 5, false, 6⟩).live) ∧
    (lpTimerInv (⟨[], none, false, 0⟩ : LPState) ∧
      lpTimerInv (handleTouchCancel ⟨[], none, false, 0⟩)) := by
  have hinv0 : hoverTimerInv (initState false) := by
    refine ⟨by simp [initState], ?_⟩
    intro p hp
    simp [initState] at hp
  have hlp0 : lpTimerInv (⟨[], none, false, 0⟩ : LPState) := by
    refine ⟨by simp, ?_⟩
    intro u hu
    simp at hu
  refine ⟨⟨rfl, rfl, by decide, ?_⟩, ⟨hinv0, ?_⟩, ⟨rfl, ?_⟩,
    ⟨rfl, by decide, ?_⟩, ⟨hlp0, ?_⟩⟩
  · exact (timer_exclusivity_amended.1 (handleHoverStart (initState false)
      (.mk 1 "M1" "a@b" true .null .null))
      (.mk 1 "M1" "a@b" true .null .null) 0 rfl rfl (by decide)).2.2
  · exact (timer_exclusivity_amended.2.1 (initState false) hinv0).2.1
  · exact timer_exclusivity_amended.2.2.1 (initState false) rfl
  · exact timer_exclusivity_amended.2.2.2.1 ⟨[5], some 5, false, 6⟩ 5 rfl
      (by decide)
  · exact (timer_exclusivity_amended.2.2.2.2 ⟨[], none, false, 0⟩ hlp0).2.2.1

/-- C7 (the spec is right, the code is not): the component's only effect
registers no cleanup, so unmounting cancels nothing — a hover-show timeout
pending at teardown stays live, and firing it still updates the hover state
of the unmounted instance. -/
theorem unmount_leaves_timer_pending :
    (unmountComp (handleHoverStart (initState false)
        (.mk 1 "M1" "a@b" true .null .null))).mounted = false ∧
    (unmountComp (handleHoverStart (initState false)
        (.mk 1 "M1" "a@b" true .null .null))).live =
      [(0, TimerAction.showNode (.mk 1 "M1" "a@b" true .null .null))] ∧
    (fireTimer (some ⟨0, 0, 800, 600⟩) [(1, ⟨10, 10, 100, 105⟩)]
        (unmountComp (handleHoverStart (initState false)
          (.mk 1 "M1" "a@b" true .null .null))) 0).hoverNode =
      .mk 1 "M1" "a@b" true .null .null ∧
    (fireTimer (some ⟨0, 0, 800, 600⟩) [(1, ⟨10, 10, 100, 105⟩)]
        (unmountComp (handleHoverStart (initState false)
          (.mk 1 "M1" "a@b" true .null .null))) 0).mounted = false :=
  ⟨rfl, rfl, rfl, rfl⟩

/-- C8: when the DOM lookup cannot find a node's element, the position
lookup reports not-found, the hover-show callback leaves the state
untouched, and a mobile first tap leaves the state untouched. -/
theorem missing_anchor_skips_popover (container : Option Rect)
    (dom : List (ℕ × Rect)) (s : CompState) (n : TreeNode) :
    (dom.lookup n.id = none → getNodePosition container dom n.id = none) ∧
    (getNodePosition container dom n.id = none →
      runTimerAction container dom s (.showNode n) = s) ∧
    (getNodePosition container dom n.id = none → s.isMobile = true →
      ¬ s.tappedNodeId = some n.id → handleMobileTap container dom s n = s) := by
  refine ⟨?_, ?_, ?_⟩
  · intro h
    cases container with
    | none => rfl
    | some c => simp [getNodePosition, h]
  · intro h
    simp [runTimerAction, h]
  · intro h hm ht
    simp [handleMobileTap, hm, ht, h]

/-- Closed instance of `missing_anchor_skips_popover` on an empty DOM. -/
theorem missing_anchor_skips_popover_witness :
    (([] : List (ℕ × Rect)).lookup
        (TreeNode.mk 1 "M1" "a@b" true .null .null).id = none ∧
      getNodePosition (some ⟨0, 0, 800, 600⟩) []
        (TreeNode.mk 1 "M1" "a@b" true .null .null).id = none) ∧
    (runTimerAction (some ⟨0, 0, 800, 600⟩) [] (initState true)
        (.showNode (.mk 1 "M1" "a@b" true .null .null)) = initState true) ∧
    ((initState true).isMobile = true ∧
      ¬ (initState true).tappedNodeId =
        some (TreeNode.mk 1 "M1" "a@b" true .null .null).id ∧
      handleMobileTap (some ⟨0, 0, 800, 600⟩) [] (initState true)
        (.mk 1 "M1" "a@b" true .null .null) = initState true) :=
  ⟨⟨rfl,
    (missing_anchor_skips_popover (some ⟨0, 0, 800, 600⟩) [] (initState true)
      (.mk 1 "M1" "a@b" true .null .null)).1 rfl⟩,
   (missing_anchor_skips_popover (some ⟨0, 0, 800, 600⟩) [] (initState true)
      (.mk 1 "M1" "a@b" true .null .null)).2.1 rfl,
   ⟨rfl, by decide,
    (missing_anchor_skips_popover (some ⟨0, 0, 800, 600⟩) [] (initState true)
      (.mk 1 "M1" "a@b" true .null .null)).2.2 rfl rfl (by decide)⟩⟩

/-- C2: the four cases of the subtree-width recurrence, exactly as
`getSubtreeWidth` computes them: a missing child yields `NODE_WIDTH` when the
reserve flag is set and `0` otherwise; a leaf yields
`2 * NODE_WIDTH + HORIZONTAL_SPACING` whatever the flag; an internal node
(at least one child present) yields
`width(left, !hasLeft) + HORIZONTAL_SPACING + width(right, !hasRight)`. -/
theorem subtree_width_recurrence :
    getSubtreeWidth .null true = NODE_WIDTH ∧
    getSubtreeWidth .null false = 0 ∧
    (∀ (i : ℕ) (m e : String) (a : Bool) (b : Bool),
      getSubtreeWidth (.mk i m e a .null .null) b =
        2 * NODE_WIDTH + HORIZONTAL_SPACING) ∧
    (∀ (i : ℕ) (m e : String) (a : Bool) (l r : TreeNode) (b : Bool),
      (l.isNull && r.isNull) = false →
      getSubtreeWidth (.mk i m e a l r) b =
        getSubtreeWidth l l.isNull + HORIZONTAL_SPACING +
          getSubtreeWidth r r.isNull) := by
  refine ⟨rfl, rfl, ?_, ?_⟩
  · intro i m e a b
    simp [getSubtreeWidth, TreeNode.isNull, NODE_WIDTH, HORIZONTAL_SPACING]
    norm_num
  · intro i m e a l r b h
    simp [getSubtreeWidth, h]

/-- Closed instance of `subtree_width_recurrence`: the internal-node case at a
concrete node whose only child is a left leaf. -/
theorem subtree_width_recurrence_witness :
    ((TreeNode.mk 2 "L" "l@x" true .null .null).isNull &&
        (TreeNode.null).isNull) = false ∧
    getSubtreeWidth
        (.mk 1 "R" "r@x" true (.mk 2 "L" "l@x" true .null .null) .null) true =
      getSubtreeWidth (.mk 2 "L" "l@x" true .null .null)
          (TreeNode.mk 2 "L" "l@x" true .null .null).isNull +
        HORIZONTAL_SPACING + getSubtreeWidth .null (TreeNode.null).isNull :=
  ⟨by decide,
    subtree_width_recurrence.2.2.2 1 "R" "r@x" true
      (.mk 2 "L" "l@x" true .null .null) .null true (by decide)⟩

/-- C3: a root whose left child is a leaf and whose right child is absent has
total layout width `3 * NODE_WIDTH + 2 * HORIZONTAL_SPACING`, and the center
assigned to the left child lies strictly left of the root's center. -/
theorem single_left_child_layout (i li : ℕ) (m e lm le : String) (a la : Bool) :
    getSubtreeWidth (.mk i m e a (.mk li lm le la .null .null) .null) true =
      3 * NODE_WIDTH + 2 * HORIZONTAL_SPACING ∧
    ∀ x : ℚ,
      leftCenterX (.mk i m e a (.mk li lm le la .null .null) .null) x < x := by
  constructor
  · simp [getSubtreeWidth, TreeNode.isNull, NODE_WIDTH, HORIZONTAL_SPACING]
    norm_num
  · intro x
    simp [leftCenterX, totalChildWidth, leftSubtreeWidth, rightSubtreeWidth,
      TreeNode.leftChild, TreeNode.rightChild, getSubtreeWidth, TreeNode.isNull,
      NODE_WIDTH, HORIZONTAL_SPACING]
    linarith

end MonkeyCoin
